import Mathlib

/-!
Verification of the message (toast) overlay manager of
`src/message/Message.tsx`: container resolution, instance lifecycle,
duration-based auto-dismiss, and the global registry with bulk close.
The React/DOM layer is embedded as explicit state: an instance records
whether its component is mounted, whether its backing `div` is attached,
the deadline of the pending `setTimeout`, and the chronological list of
lifecycle callbacks that have fired so far.
-/

namespace TMessage

/-- Theme tags of the message factory API. -/
inductive Theme
  | info | success | warning | error | question | loading
deriving DecidableEq, Repr

/-- Modelled from the spec: the `ThemeList` constant is exported by
`./const`, which is not among the sources; the spec enumerates the tags
info, success, warning, error, question, loading. -/
def ThemeList : List Theme :=
  [.info, .success, .warning, .error, .question, .loading]

/-- Placement tags for a container. -/
inductive Placement
  | top | topLeft | topRight | bottom | bottomLeft | bottomRight
deriving DecidableEq, Repr

/-- The JS value supplied as `attach`: absent/undefined, a real DOM
element, a React element, or some other primitive value. -/
inductive AttachV
  | missing
  | domElement (id : Nat)
  | reactElement (id : Nat)
  | primitive
deriving DecidableEq, Repr

/-- `React.isValidElement(attach)`: true exactly for React elements
(false for DOM elements and for anything else). -/
def isValidReactElement : AttachV → Bool
  | .reactElement _ => true
  | _ => false

/-- An opaque renderable value (message content or a `content` field). -/
inductive ContentV
  | str (s : String)
  | num (n : Int)
  | nullV
  | element (id : Nat)
deriving DecidableEq, Repr

/-- JS truthiness of a content value (the `!!content` test). -/
def truthyContent : ContentV → Bool
  | .str s => s != ""
  | .num n => n != 0
  | .nullV => false
  | .element _ => true

/-- The single argument of a theme factory: the JS value itself (`self`,
used when the argument is taken wholesale as content) together with the
properties the factory inspects. `isPlainObject` models
`Object.prototype.toString.call(arg) === "[object Object]"`; an absent or
undefined property is `none`. -/
structure FactoryArg where
  self : ContentV
  isPlainObject : Bool
  content : Option ContentV
  duration : Option Int
  zIndex : Option Nat
  placement : Option Placement
  attach : AttachV
deriving DecidableEq, Repr

/-- `isConfig`: the argument is a plain object whose `content` property
is truthy. -/
def isConfig (a : FactoryArg) : Bool :=
  a.isPlainObject && (a.content.map truthyContent).getD false

/-- The `content` field of a resolved `MessageConfig`: either the config
object's own `content` property, or the whole factory argument used
wholesale as content. -/
inductive MsgContent
  | fromField (c : ContentV)
  | whole (a : FactoryArg)
deriving DecidableEq, Repr

/-- A resolved `MessageConfig` as consumed by `renderElement`. -/
structure MessageConfig where
  content : MsgContent
  duration : Option Int
  zIndex : Option Nat
  placement : Option Placement
  attach : AttachV
deriving DecidableEq, Repr

/-- `globalConfig.zIndex`. -/
def globalZIndex : Nat := 6000

/-- `globalConfig.duration`. -/
def globalDuration : Int := 3000

/-- `globalConfig.top`. -/
def globalTop : Nat := 32

/-- `config.zIndex || globalConfig.zIndex` (JS `||`: 0 is falsy). -/
def resolveZIndex : Option Nat → Nat
  | some z => if z = 0 then globalZIndex else z
  | none => globalZIndex

/-- The config built by a theme factory `Message[theme](content, duration)`:
the default parameter `duration = globalConfig.duration`, the `isConfig`
dispatch with spread `{ duration, ...content }` (a `duration` property of
the config object overrides the parameter), then the zIndex default. -/
def factoryConfig (arg : FactoryArg) (durParam : Option Int) : MessageConfig :=
  let dur := durParam.getD globalDuration
  let config : MessageConfig :=
    if isConfig arg then
      { content :=
          match arg.content with
          | some c => MsgContent.fromField c
          | none => MsgContent.whole arg
        duration := some ((arg.duration).getD dur)
        zIndex := arg.zIndex
        placement := arg.placement
        attach := arg.attach }
    else
      { content := MsgContent.whole arg
        duration := some dur
        zIndex := none
        placement := none
        attach := AttachV.missing }
  { config with zIndex := some (resolveZIndex config.zIndex) }

/-- Lifecycle callbacks of one instance, in the order they fire. -/
inductive IEvent
  | durationEnd
  | closed
deriving DecidableEq, Repr

/-- The state of one rendered message: whether the React component is
mounted in its `div`, whether the `div` is attached to the container, the
absolute deadline (ms since mount) of the pending `setTimeout`, and the
callbacks fired so far. -/
structure InstanceState where
  mounted : Bool
  attached : Bool
  timer : Option Nat
  trace : List IEvent
deriving DecidableEq, Repr

/-- `setTimeout` delay for a `duration` prop: a number is clamped at 0,
an undefined duration behaves as delay 0. -/
def delayOf : Option Int → Nat
  | some d => d.toNat
  | none => 0

/-- `startDuration` at time `now`: clear the pending timer and arm a
fresh one for the full `duration`. -/
def startDuration (dur : Option Int) (now : Nat) (s : InstanceState) : InstanceState :=
  { s with timer := some (now + delayOf dur) }

/-- The `close` operation of a handle:
`ReactDOM.unmountComponentAtNode(div)` (a no-op when nothing is mounted;
otherwise it runs the effect cleanup, which clears the timer and fires
`onClosed` once) followed by `div.remove()`. -/
def closeOp (s : InstanceState) : InstanceState :=
  let s1 :=
    if s.mounted then
      { s with mounted := false, timer := none, trace := s.trace ++ [IEvent.closed] }
    else s
  { s1 with attached := false }

/-- Mounting `<Message>` at time 0: the effect arms a timer iff
`typeof duration === "number"`. -/
def mountInstance (dur : Option Int) : InstanceState :=
  let s0 : InstanceState := { mounted := true, attached := true, timer := none, trace := [] }
  if dur.isSome then startDuration dur 0 s0 else s0

/-- Events one instance can receive. -/
inductive Act
  | close
  | fire
  | enter
  | leave
deriving DecidableEq, Repr

/-- One timed event: a manual close; the timeout firing at its deadline
(`onDurationEnd({ close })`, then `close()`); `onMouseEnter`
(`clearTimeout`); `onMouseLeave` (`startDuration`, restarting the full
duration). -/
def step (dur : Option Int) (s : InstanceState) (a : Act × Nat) : InstanceState :=
  match a with
  | (Act.close, _) => closeOp s
  | (Act.fire, t) =>
      if s.timer = some t then
        closeOp { s with timer := none, trace := s.trace ++ [IEvent.durationEnd] }
      else s
  | (Act.enter, _) => { s with timer := none }
  | (Act.leave, t) => startDuration dur t s

/-- Run a sequence of timed events. -/
def run (dur : Option Int) (s : InstanceState) (acts : List (Act × Nat)) : InstanceState :=
  acts.foldl (step dur) s

/-- Number of `onClosed` invocations recorded so far. -/
def closedCount (s : InstanceState) : Nat :=
  s.trace.count IEvent.closed

/-- Instance invariant: `onClosed` has fired exactly once iff the
component is unmounted (and never before that). -/
def Inv (s : InstanceState) : Prop :=
  closedCount s = if s.mounted then 0 else 1

instance (s : InstanceState) : Decidable (Inv s) :=
  inferInstanceAs (Decidable (closedCount s = if s.mounted then 0 else 1))

theorem closeOp_mounted (s : InstanceState) : (closeOp s).mounted = false := by
  unfold closeOp
  cases h : s.mounted <;> simp [h]

theorem closeOp_idem (s : InstanceState) : closeOp (closeOp s) = closeOp s := by
  unfold closeOp
  cases h : s.mounted <;> simp [h]

theorem closeOp_trace_of_not_mounted (s : InstanceState) (h : s.mounted = false) :
    (closeOp s).trace = s.trace := by
  unfold closeOp
  simp [h]

theorem closeOp_trace_of_mounted (s : InstanceState) (h : s.mounted = true) :
    (closeOp s).trace = s.trace ++ [IEvent.closed] := by
  unfold closeOp
  simp [h]

theorem Inv_closeOp {s : InstanceState} (h : Inv s) : Inv (closeOp s) := by
  unfold Inv closedCount at h ⊢
  unfold closeOp
  cases hm : s.mounted <;> simp [hm] at h ⊢ <;> simp [h]

theorem Inv_mount (dur : Option Int) : Inv (mountInstance dur) := by
  unfold Inv closedCount mountInstance startDuration
  cases dur <;> simp

theorem Inv_step (dur : Option Int) (s : InstanceState) (a : Act × Nat)
    (h : Inv s) : Inv (step dur s a) := by
  obtain ⟨act, t⟩ := a
  cases act with
  | close => exact Inv_closeOp h
  | fire =>
    by_cases ht : s.timer = some t
    · have h2 : Inv { s with timer := none, trace := s.trace ++ [IEvent.durationEnd] } := by
        unfold Inv closedCount at h ⊢
        simpa using h
      simpa [step, ht] using Inv_closeOp h2
    · simpa [step, ht] using h
  | enter =>
    unfold Inv closedCount at h ⊢
    simpa [step] using h
  | leave =>
    unfold Inv closedCount at h ⊢
    simpa [step, startDuration] using h

theorem Inv_run (dur : Option Int) (s : InstanceState) (acts : List (Act × Nat))
    (h : Inv s) : Inv (run dur s acts) := by
  induction acts generalizing s with
  | nil => exact h
  | cons a acts ih => exact ih (step dur s a) (Inv_step dur s a h)

/-- The host into which a container `div` is appended. In the sources the
mount node is `document.body` unless `attach` is a React element. -/
inductive MountHost
  | body
  | reactHost (id : Nat)
deriving DecidableEq, Repr

/-- One container `div` (class `prefixWrapper`) appended to a host. -/
structure Container where
  id : Nat
  host : MountHost
  placement : Placement
  zIndex : Option Nat
deriving DecidableEq, Repr

/-- The process-wide mutable state of `Message.tsx`: the `keyIndex`
counter, the containers appended so far (in DOM order), the `MessageList`
registry (handle keys, in creation order), every handle's instance state
keyed by its `key`, and the chronological log of `close()` invocations. -/
structure GlobalState where
  keyIndex : Nat
  nextContainerId : Nat
  containers : List Container
  registry : List Nat
  instances : List (Nat × InstanceState)
  closeLog : List Nat
deriving DecidableEq, Repr

/-- The module-load state: `keyIndex = 1`, empty registry, no containers. -/
def initState : GlobalState :=
  { keyIndex := 1, nextContainerId := 0, containers := [], registry := [],
    instances := [], closeLog := [] }

/-- `createContainer`: the mount node is `document.body` unless
`React.isValidElement(attach)`, in which case the React element itself is
taken as the mount node and the following `querySelectorAll` call throws.
The lookup `mountedDom.querySelectorAll(.prefixWrapper)` is keyed by the
wrapper class only — the placement is not part of the lookup key — and a
fresh container is appended only when the host has none. -/
def createContainer (cfg : MessageConfig) (g : GlobalState) :
    Except String (GlobalState × Nat) :=
  if isValidReactElement cfg.attach then
    Except.error "mountedDom.querySelectorAll is not a function"
  else
    match g.containers.find? (fun c => c.host == MountHost.body) with
    | some c => Except.ok (g, c.id)
    | none =>
      let div : Container :=
        { id := g.nextContainerId, host := MountHost.body,
          placement := cfg.placement.getD Placement.top, zIndex := cfg.zIndex }
      Except.ok ({ g with containers := g.containers ++ [div],
                          nextContainerId := g.nextContainerId + 1 }, div.id)

/-- `renderElement`: resolve the container, bump `keyIndex`, mount a
`<Message>` into a fresh `div` (its effect arms the duration timer),
append the `div` to the container and push the handle `{ close, key }`
onto `MessageList`; the returned promise resolves with that handle. -/
def renderElement (_theme : Theme) (cfg : MessageConfig) (g : GlobalState) :
    Except String (GlobalState × Nat) :=
  match createContainer cfg g with
  | Except.error e => Except.error e
  | Except.ok (g1, _container) =>
    Except.ok ({ g1 with
                  keyIndex := g1.keyIndex + 1,
                  instances := g1.instances ++ [(g1.keyIndex + 1, mountInstance cfg.duration)],
                  registry := g1.registry ++ [g1.keyIndex + 1] },
               g1.keyIndex + 1)

/-- The instance state of the handle with key `k`. -/
def lookupInst (g : GlobalState) (k : Nat) : Option InstanceState :=
  (g.instances.find? (fun p => p.1 == k)).map Prod.snd

/-- Invoking `close()` on the handle with key `k`: the invocation is
logged and `closeOp` is applied to that handle's instance. The registry
is not touched. -/
def invokeClose (g : GlobalState) (k : Nat) : GlobalState :=
  { g with
    closeLog := g.closeLog ++ [k],
    instances := g.instances.map (fun p => if p.1 = k then (p.1, closeOp p.2) else p) }

/-- `Message.closeAll`: `MessageList.forEach((m) => m.close())` in list
order, then `MessageList = []`. -/
def closeAll (g : GlobalState) : GlobalState :=
  { g.registry.foldl invokeClose g with registry := [] }

/-- A theme factory call `Message[theme](arg, duration?)`. -/
def runFactory (theme : Theme) (arg : FactoryArg) (durParam : Option Int)
    (g : GlobalState) : Except String (GlobalState × Nat) :=
  renderElement theme (factoryConfig arg durParam) g

/-- Project the state out of a successful factory call. -/
def stepOk (r : Except String (GlobalState × Nat)) : GlobalState :=
  match r with
  | Except.ok (g, _) => g
  | Except.error _ => initState

/-- All keys ever issued to handles. -/
def issuedKeys (g : GlobalState) : List Nat := g.instances.map Prod.fst

/-- Every issued key is bounded by the current counter. -/
def KeysBounded (g : GlobalState) : Prop := ∀ k ∈ issuedKeys g, k ≤ g.keyIndex

theorem lookup_closeMap (k k' : Nat) (l : List (Nat × InstanceState)) :
    ((l.map (fun p => if p.1 = k then (p.1, closeOp p.2) else p)).find?
        (fun p => p.1 == k')).map Prod.snd
      = if k' = k
        then ((l.find? (fun p => p.1 == k')).map Prod.snd).map closeOp
        else (l.find? (fun p => p.1 == k')).map Prod.snd := by
  induction l with
  | nil => by_cases h : k' = k <;> simp [h]
  | cons p l ih =>
    have hfst : ((if p.1 = k then (p.1, closeOp p.2) else p) : Nat × InstanceState).1 = p.1 := by
      by_cases h : p.1 = k <;> simp [h]
    rw [List.map_cons, List.find?_cons, List.find?_cons, hfst]
    by_cases hk' : (p.1 == k') = true
    · have hpk' : p.1 = k' := by simpa using hk'
      by_cases hpk : p.1 = k
      · have hkk : k' = k := by rw [← hpk']; exact hpk
        simp [hk', hpk, hkk]
      · have hkk : ¬ k' = k := by rw [← hpk']; exact hpk
        simp [hk', hpk, hkk]
    · have hk2 : (p.1 == k') = false := by simpa using hk'
      simpa [hk2] using ih

theorem lookupInst_invokeClose (g : GlobalState) (k k' : Nat) :
    lookupInst (invokeClose g k) k' =
      if k' = k then (lookupInst g k').map closeOp else lookupInst g k' := by
  unfold lookupInst invokeClose
  exact lookup_closeMap k k' g.instances

theorem foldl_invokeClose_closeLog (ks : List Nat) (g : GlobalState) :
    (ks.foldl invokeClose g).closeLog = g.closeLog ++ ks := by
  induction ks generalizing g with
  | nil => simp
  | cons k ks ih =>
    rw [List.foldl_cons, ih]
    show (invokeClose g k).closeLog ++ ks = _
    rw [invokeClose]
    simp

theorem foldl_invokeClose_registry (ks : List Nat) (g : GlobalState) :
    (ks.foldl invokeClose g).registry = g.registry := by
  induction ks generalizing g with
  | nil => rfl
  | cons k ks ih =>
    rw [List.foldl_cons, ih]
    rfl

theorem foldl_invokeClose_lookup_of_not_mem (ks : List Nat) (g : GlobalState) (k : Nat)
    (hk : k ∉ ks) : lookupInst (ks.foldl invokeClose g) k = lookupInst g k := by
  induction ks generalizing g with
  | nil => rfl
  | cons k0 ks ih =>
    rw [List.foldl_cons, ih _ (fun h => hk (List.mem_cons_of_mem _ h)),
        lookupInst_invokeClose,
        if_neg (fun h : k = k0 => hk (by rw [h]; exact List.mem_cons_self _ _))]

theorem foldl_invokeClose_lookup_of_mem (ks : List Nat) (g : GlobalState) (k : Nat)
    (hk : k ∈ ks) :
    lookupInst (ks.foldl invokeClose g) k = (lookupInst g k).map closeOp := by
  induction ks generalizing g with
  | nil => cases hk
  | cons k0 ks ih =>
    rw [List.foldl_cons]
    by_cases hmem : k ∈ ks
    · rw [ih _ hmem, lookupInst_invokeClose]
      by_cases hkk : k = k0
      · rw [if_pos hkk]
        cases lookupInst g k <;> simp [closeOp_idem]
      · rw [if_neg hkk]
    · have hk0 : k = k0 := by
        cases List.mem_cons.mp hk with
        | inl h => exact h
        | inr h => exact absurd h hmem
      rw [foldl_invokeClose_lookup_of_not_mem _ _ _ hmem, lookupInst_invokeClose,
          if_pos hk0]

theorem lookupInst_some {g : GlobalState} {k : Nat} {st : InstanceState}
    (h : lookupInst g k = some st) : ∃ p ∈ g.instances, p.2 = st ∧ p.1 = k := by
  unfold lookupInst at h
  cases hf : g.instances.find? (fun p => p.1 == k) with
  | none => rw [hf] at h; cases h
  | some p =>
    rw [hf] at h
    refine ⟨p, List.mem_of_find?_eq_some hf, by simpa using h, by simpa using List.find?_some hf⟩

theorem closedCount_closeOp {s : InstanceState} (h : Inv s) :
    closedCount (closeOp s) = 1 := by
  have h2 := Inv_closeOp h
  unfold Inv at h2
  rwa [closeOp_mounted, if_neg (by simp)] at h2

theorem createContainer_ok_fields {cfg : MessageConfig} {g g1 : GlobalState} {c : Nat}
    (h : createContainer cfg g = Except.ok (g1, c)) :
    g1.keyIndex = g.keyIndex ∧ g1.instances = g.instances ∧
    g1.registry = g.registry ∧ g1.closeLog = g.closeLog := by
  unfold createContainer at h
  by_cases ha : isValidReactElement cfg.attach = true
  · rw [if_pos ha] at h; cases h
  · rw [if_neg ha] at h
    cases hf : g.containers.find? (fun c => c.host == MountHost.body) with
    | some c0 =>
      rw [hf] at h
      injection h with h2
      injection h2 with h3 h4
      subst h3
      exact ⟨rfl, rfl, rfl, rfl⟩
    | none =>
      rw [hf] at h
      injection h with h2
      injection h2 with h3 h4
      subst h3
      exact ⟨rfl, rfl, rfl, rfl⟩

theorem set_timer_none_eq (s : InstanceState) (h : s.timer = none) :
    { s with timer := none } = s := by
  cases s
  simp_all

theorem run_no_close_no_leave (dur : Option Int) (s : InstanceState)
    (acts : List (Act × Nat)) (hT : s.timer = none) :
    (∀ a ∈ acts, a.1 ≠ Act.close ∧ a.1 ≠ Act.leave) → run dur s acts = s := by
  induction acts with
  | nil => intro _; rfl
  | cons a acts ih =>
    intro hA
    have hstep : step dur s a = s := by
      obtain ⟨act, t⟩ := a
      have h1 := hA (act, t) (List.mem_cons_self _ _)
      cases act with
      | close => exact absurd rfl h1.1
      | leave => exact absurd rfl h1.2
      | fire => simp [step, hT]
      | enter => exact set_timer_none_eq s hT
    show List.foldl (step dur) (step dur s a) acts = s
    rw [hstep]
    exact ih (fun a ha => hA a (List.mem_cons_of_mem _ ha))

/-- The plain string argument "hello": not a config object. -/
def argHello : FactoryArg :=
  { self := ContentV.str "hello", isPlainObject := false, content := none,
    duration := none, zIndex := none, placement := none, attach := AttachV.missing }

/-- Claim C1 counterexample: an instance created with `duration = 0` does
get a timer armed (deadline 0) and auto-closes when it fires, and a
factory call with `duration` omitted resolves the duration to the 3000 ms
default rather than "never". -/
theorem c1_counterexample :
    (mountInstance (some 0)).timer = some 0 ∧
    (run (some 0) (mountInstance (some 0)) [(Act.fire, 0)]).trace
      = [IEvent.durationEnd, IEvent.closed] ∧
    (factoryConfig argHello none).duration = some 3000 := by
  decide

/-- Claim C1 (amended): an instance arms no auto-dismiss timer iff its
`duration` prop is not a number; with a non-numeric duration and no
close or pointer-leave event the instance never changes state (so it
never auto-closes); a factory call with `duration` omitted defaults it to
`globalConfig.duration` (3000 ms), arming a timer. -/
theorem duration_timer_policy :
    (∀ d : Option Int, (mountInstance d).timer = none ↔ d = none) ∧
    (∀ acts : List (Act × Nat),
       (∀ a ∈ acts, a.1 ≠ Act.close ∧ a.1 ≠ Act.leave) →
       run none (mountInstance none) acts = mountInstance none) ∧
    (∀ arg : FactoryArg, isConfig arg = false →
       (factoryConfig arg none).duration = some globalDuration) := by
  refine ⟨?_, ?_, ?_⟩
  · intro d
    cases d with
    | none => simp [mountInstance]
    | some d => simp [mountInstance, startDuration]
  · intro acts hA
    exact run_no_close_no_leave none (mountInstance none) acts rfl hA
  · intro arg h
    simp [factoryConfig, h]

theorem duration_timer_policy_witness :
    run none (mountInstance none) [(Act.enter, 1), (Act.fire, 3000)] = mountInstance none :=
  duration_timer_policy.2.1 [(Act.enter, 1), (Act.fire, 3000)] (by decide)

/-- Claim C4: `close()` is idempotent — a second invocation is a no-op on
the instance (same state, no duplicate `onClosed`), both on the bare
close operation and through a handle in the global state. -/
theorem close_idempotent :
    ∀ (s : InstanceState) (g : GlobalState) (k : Nat),
      closeOp (closeOp s) = closeOp s ∧
      (invokeClose (invokeClose g k) k).instances = (invokeClose g k).instances ∧
      closedCount (closeOp (closeOp s)) = closedCount (closeOp s) := by
  intro s g k
  refine ⟨closeOp_idem s, ?_, by rw [closeOp_idem]⟩
  have hf : ((fun p : Nat × InstanceState => if p.1 = k then (p.1, closeOp p.2) else p) ∘
             (fun p : Nat × InstanceState => if p.1 = k then (p.1, closeOp p.2) else p))
          = (fun p : Nat × InstanceState => if p.1 = k then (p.1, closeOp p.2) else p) := by
    funext p
    by_cases h : p.1 = k <;> simp [h, closeOp_idem]
  show ((g.instances.map _).map _) = g.instances.map _
  rw [List.map_map, hf]

/-- State after hover-enter at time `t1` on an instance with duration `D`. -/
def afterEnter (D : Int) (t1 : Nat) : InstanceState :=
  step (some D) (mountInstance (some D)) (Act.enter, t1)

/-- State after hover-enter at `t1` then hover-leave at `t2`. -/
def afterLeave (D : Int) (t1 t2 : Nat) : InstanceState :=
  step (some D) (afterEnter D t1) (Act.leave, t2)

/-- Claim C7: for duration `D > 0`, pointer-enter cancels the pending
timer, pointer-leave re-arms a fresh timer for the full original `D`
(deadline `t2 + D`, not the remaining time), and the timer firing at the
original `D` mark is a no-op, so the instance does not close there. -/
theorem hover_restart (D : Int) (t1 t2 : Nat) (_hD : 0 < D) (ht2 : 0 < t2) :
    (mountInstance (some D)).timer = some (delayOf (some D)) ∧
    (afterEnter D t1).timer = none ∧
    (afterLeave D t1 t2).timer = some (t2 + delayOf (some D)) ∧
    step (some D) (afterLeave D t1 t2) (Act.fire, delayOf (some D)) = afterLeave D t1 t2 := by
  refine ⟨?_, rfl, rfl, ?_⟩
  · simp [mountInstance, startDuration]
  · have hne : ¬ ((afterLeave D t1 t2).timer = some (delayOf (some D))) := by
      show ¬ (some (t2 + delayOf (some D)) = some (delayOf (some D)))
      intro hc
      injection hc with hc2
      omega
    simp [step, hne]

theorem hover_restart_witness :
    (afterLeave 5 1 2).timer = some (2 + delayOf (some 5)) :=
  (hover_restart 5 1 2 (by decide) (by decide)).2.2.1

/-- Claim C8: when the auto-dismiss timer fires, `onDurationEnd` (invoked
with the close operation) is recorded first and `onClosed` right after
it; and over any event sequence the instance invariant holds, so
`onClosed` fires exactly once however the close is triggered. -/
theorem timer_fire_order :
    (∀ (dur : Option Int) (s : InstanceState) (t : Nat),
       s.mounted = true → s.timer = some t →
       (step dur s (Act.fire, t)).trace = s.trace ++ [IEvent.durationEnd, IEvent.closed]) ∧
    (∀ (dur : Option Int) (acts : List (Act × Nat)),
       Inv (run dur (mountInstance dur) acts)) := by
  constructor
  · intro dur s t hm ht
    have h1 : step dur s (Act.fire, t)
        = closeOp { s with timer := none, trace := s.trace ++ [IEvent.durationEnd] } := by
      simp [step, ht]
    rw [h1, closeOp_trace_of_mounted _ (by exact hm)]
    simp
  · intro dur acts
    exact Inv_run dur (mountInstance dur) acts (Inv_mount dur)

theorem timer_fire_order_witness :
    (step (some 5) (mountInstance (some 5)) (Act.fire, 5)).trace
      = (mountInstance (some 5)).trace ++ [IEvent.durationEnd, IEvent.closed] :=
  timer_fire_order.1 (some 5) (mountInstance (some 5)) 5 (by decide) (by decide)

/-- A config with placement `top` and no `attach`. -/
def cfgTop : MessageConfig :=
  { content := MsgContent.fromField (ContentV.str "a"), duration := none,
    zIndex := some 6000, placement := some Placement.top, attach := AttachV.missing }

/-- A config with placement `bottom` and no `attach`. -/
def cfgBottom : MessageConfig :=
  { content := MsgContent.fromField (ContentV.str "b"), duration := none,
    zIndex := some 6000, placement := some Placement.bottom, attach := AttachV.missing }

/-- The state holding the single container created by resolving `cfgTop`
from the initial state. -/
def gOneContainer : GlobalState :=
  { initState with
    nextContainerId := 1,
    containers := [{ id := 0, host := MountHost.body, placement := Placement.top,
                     zIndex := some 6000 }] }

instance {ε α : Type} [DecidableEq ε] [DecidableEq α] : DecidableEq (Except ε α)
  | Except.ok x, Except.ok y =>
    if h : x = y then isTrue (h ▸ rfl) else isFalse (fun hc => h (Except.ok.inj hc))
  | Except.ok _, Except.error _ => isFalse (fun hc => Except.noConfusion hc)
  | Except.error _, Except.ok _ => isFalse (fun hc => Except.noConfusion hc)
  | Except.error e, Except.error f =>
    if h : e = f then isTrue (h ▸ rfl) else isFalse (fun hc => h (Except.error.inj hc))

instance (g : GlobalState) : Decidable (KeysBounded g) :=
  inferInstanceAs (Decidable (∀ k ∈ issuedKeys g, k ≤ g.keyIndex))

/-- Claim C2 counterexample: the second resolution, against the same host
but a different placement (`bottom` vs `top`), reuses container 0 and
creates no second container — the container count stays 1 although two
distinct host×placement pairs were used, so the invariant "one container
per distinct host×placement pair" fails. -/
theorem c2_counterexample :
    createContainer cfgTop initState = Except.ok (gOneContainer, 0) ∧
    createContainer cfgBottom gOneContainer = Except.ok (gOneContainer, 0) ∧
    gOneContainer.containers.length = 1 ∧
    ¬ cfgTop.placement = cfgBottom.placement := by
  decide

theorem createContainer_find {cfg : MessageConfig} {g g1 : GlobalState} {c1 : Nat}
    (h : createContainer cfg g = Except.ok (g1, c1)) :
    ∃ c, g1.containers.find? (fun c => c.host == MountHost.body) = some c ∧ c.id = c1 := by
  unfold createContainer at h
  by_cases ha : isValidReactElement cfg.attach = true
  · rw [if_pos ha] at h; cases h
  · rw [if_neg ha] at h
    cases hf : g.containers.find? (fun c => c.host == MountHost.body) with
    | some c =>
      rw [hf] at h
      injection h with h2
      injection h2 with h3 h4
      subst h3
      exact ⟨c, hf, h4⟩
    | none =>
      rw [hf] at h
      injection h with h2
      injection h2 with h3 h4
      subst h3
      refine ⟨{ id := g.nextContainerId, host := MountHost.body,
                placement := cfg.placement.getD Placement.top, zIndex := cfg.zIndex },
              ?_, h4⟩
      simp [List.find?_append, hf]

/-- Claim C2 (amended): container resolution is idempotent per host: once
a resolution has succeeded, any subsequent successful resolution against
the same host — whatever its placement — returns the same container and
leaves the state unchanged; the invariant is one container per host, not
one per host×placement pair. -/
theorem container_idempotent_per_host
    (cfg cfg' : MessageConfig) (g g1 g2 : GlobalState) (c1 c2 : Nat)
    (h1 : createContainer cfg g = Except.ok (g1, c1))
    (h2 : createContainer cfg' g1 = Except.ok (g2, c2)) :
    c2 = c1 ∧ g2 = g1 := by
  obtain ⟨c, hfind, hid⟩ := createContainer_find h1
  unfold createContainer at h2
  by_cases ha' : isValidReactElement cfg'.attach = true
  · rw [if_pos ha'] at h2; cases h2
  · rw [if_neg ha'] at h2
    rw [hfind] at h2
    injection h2 with h2b
    injection h2b with hg2 hc2
    exact ⟨by rw [← hc2]; exact hid, hg2.symm⟩

theorem container_idempotent_per_host_witness :
    (0 : Nat) = 0 ∧ gOneContainer = gOneContainer :=
  container_idempotent_per_host cfgTop cfgBottom initState gOneContainer gOneContainer 0 0
    (by decide) (by decide)

/-- Claim C3: `closeAll` invokes `close()` on every handle currently in
the registry in registry (creation) order, afterwards the registry is
empty, every registered instance ends with `onClosed` fired exactly once
(also when some were already manually closed before the sweep), and
`closeAll` on an empty registry is a no-op. -/
theorem closeAll_spec (g : GlobalState)
    (hInv : ∀ p ∈ g.instances, Inv p.2)
    (hReg : ∀ k ∈ g.registry, (lookupInst g k).isSome = true) :
    (closeAll g).registry = [] ∧
    (closeAll g).closeLog = g.closeLog ++ g.registry ∧
    (∀ k ∈ g.registry, ∃ st, lookupInst (closeAll g) k = some st ∧ closedCount st = 1) ∧
    (g.registry = [] → closeAll g = g) := by
  refine ⟨rfl, foldl_invokeClose_closeLog g.registry g, ?_, ?_⟩
  · intro k hk
    obtain ⟨st0, hst0⟩ : ∃ st0, lookupInst g k = some st0 :=
      Option.isSome_iff_exists.mp (hReg k hk)
    have hlook : lookupInst (closeAll g) k = (lookupInst g k).map closeOp :=
      foldl_invokeClose_lookup_of_mem g.registry g k hk
    refine ⟨closeOp st0, ?_, ?_⟩
    · rw [hlook, hst0]; rfl
    · obtain ⟨p, hmem, hsnd, -⟩ := lookupInst_some hst0
      have h1 := closedCount_closeOp (hInv p hmem)
      rwa [hsnd] at h1
  · intro hreg
    have h1 : closeAll g = { g with registry := ([] : List Nat) } := by
      unfold closeAll
      rw [hreg]
      rfl
    rw [h1]
    cases g with
    | mk ki nc cs reg insts cl =>
      have hr2 : reg = [] := hreg
      rw [hr2]

/-- State after `Message.info("hello")` from the initial state. -/
def g3a : GlobalState := stepOk (runFactory Theme.info argHello none initState)

/-- State after a second factory call, `Message.error("hello")`. -/
def g3b : GlobalState := stepOk (runFactory Theme.error argHello none g3a)

/-- State after manually closing the first handle (key 2). -/
def g3c : GlobalState := invokeClose g3b 2

theorem closeAll_spec_witness :
    (closeAll g3c).registry = [] ∧ (closeAll g3c).closeLog = g3c.closeLog ++ g3c.registry :=
  ⟨(closeAll_spec g3c (by decide) (by decide)).1,
   (closeAll_spec g3c (by decide) (by decide)).2.1⟩

theorem createContainer_ok_of_not_react (cfg : MessageConfig) (g : GlobalState)
    (h : isValidReactElement cfg.attach = false) :
    ∃ r, createContainer cfg g = Except.ok r := by
  unfold createContainer
  rw [if_neg (by rw [h]; exact Bool.false_ne_true)]
  cases hf : g.containers.find? (fun c => c.host == MountHost.body) with
  | some c => exact ⟨(g, c.id), rfl⟩
  | none => exact ⟨_, rfl⟩

/-- Claim C5: the factory map covers every theme tag; a factory call with
a plain (non-config) argument always resolves; a successful factory call
issues the key `keyIndex + 1`, strictly greater than every previously
issued key, keeps all keys bounded by the counter, registers a freshly
mounted instance under that key, and its handle's `close` unmounts that
instance; from the initial state (counter 1) the first issued key is 2,
strictly greater than 1. -/
theorem factory_handle_key :
    (∀ th : Theme, th ∈ ThemeList) ∧
    (∀ (theme : Theme) (arg : FactoryArg) (dp : Option Int) (g : GlobalState),
       isConfig arg = false →
       ∃ r, runFactory theme arg dp g = Except.ok r) ∧
    (∀ (theme : Theme) (arg : FactoryArg) (dp : Option Int) (g g' : GlobalState) (k : Nat),
       KeysBounded g →
       runFactory theme arg dp g = Except.ok (g', k) →
       (∀ k' ∈ issuedKeys g, k' < k) ∧ KeysBounded g' ∧
       lookupInst g' k = some (mountInstance (factoryConfig arg dp).duration) ∧
       lookupInst (invokeClose g' k) k
         = some (closeOp (mountInstance (factoryConfig arg dp).duration)) ∧
       (closeOp (mountInstance (factoryConfig arg dp).duration)).mounted = false) ∧
    (∀ (theme : Theme) (arg : FactoryArg) (dp : Option Int) (g1 : GlobalState) (k1 : Nat),
       runFactory theme arg dp initState = Except.ok (g1, k1) → 1 < k1) := by
  refine ⟨?_, ?_, ?_, ?_⟩
  · intro th
    cases th <;> decide
  · intro theme arg dp g h
    have hatt : (factoryConfig arg dp).attach = AttachV.missing := by
      simp [factoryConfig, h]
    obtain ⟨r, hr⟩ := createContainer_ok_of_not_react (factoryConfig arg dp) g
      (by rw [hatt]; rfl)
    obtain ⟨g1, cid⟩ := r
    refine ⟨({ g1 with
               keyIndex := g1.keyIndex + 1,
               instances := g1.instances ++
                 [(g1.keyIndex + 1, mountInstance (factoryConfig arg dp).duration)],
               registry := g1.registry ++ [g1.keyIndex + 1] }, g1.keyIndex + 1), ?_⟩
    unfold runFactory renderElement
    rw [hr]
  · intro theme arg dp g g' k hB hok
    unfold runFactory renderElement at hok
    cases hcc : createContainer (factoryConfig arg dp) g with
    | error e => rw [hcc] at hok; cases hok
    | ok r =>
      obtain ⟨g1, cid⟩ := r
      rw [hcc] at hok
      injection hok with h2
      injection h2 with h3 h4
      obtain ⟨hKI, hIN, hRG, hCL⟩ := createContainer_ok_fields hcc
      subst h3
      subst h4
      have hc : lookupInst
          { g1 with
            keyIndex := g1.keyIndex + 1,
            instances := g1.instances ++
              [(g1.keyIndex + 1, mountInstance (factoryConfig arg dp).duration)],
            registry := g1.registry ++ [g1.keyIndex + 1] } (g1.keyIndex + 1)
          = some (mountInstance (factoryConfig arg dp).duration) := by
        show ((g1.instances ++
              [(g1.keyIndex + 1, mountInstance (factoryConfig arg dp).duration)]).find?
                (fun p => p.1 == g1.keyIndex + 1)).map Prod.snd
            = some (mountInstance (factoryConfig arg dp).duration)
        have hnone : g1.instances.find? (fun p => p.1 == g1.keyIndex + 1) = none := by
          rw [List.find?_eq_none]
          intro p hp
          have hle : p.1 ≤ g.keyIndex :=
            hB p.1 (List.mem_map_of_mem Prod.fst (hIN ▸ hp))
          simp only [beq_iff_eq]
          omega
        rw [List.find?_append, hnone]
        simp
      refine ⟨?_, ?_, hc, ?_, closeOp_mounted _⟩
      · intro k' hk'
        have h5 : k' ≤ g.keyIndex := hB k' hk'
        omega
      · intro k' hk'
        have hk2 : k' ∈ (g1.instances ++
            [(g1.keyIndex + 1, mountInstance (factoryConfig arg dp).duration)]).map Prod.fst :=
          hk'
        rw [List.map_append, List.mem_append] at hk2
        show k' ≤ g1.keyIndex + 1
        cases hk2 with
        | inl hmem =>
          have h5 : k' ≤ g.keyIndex := hB k' (by rw [issuedKeys, ← hIN]; exact hmem)
          omega
        | inr hone =>
          simp at hone
          omega
      · rw [lookupInst_invokeClose, if_pos rfl, hc]
        rfl
  · intro theme arg dp g1 k1 hok
    unfold runFactory renderElement at hok
    cases hcc : createContainer (factoryConfig arg dp) initState with
    | error e => rw [hcc] at hok; cases hok
    | ok r =>
      obtain ⟨g0, cid⟩ := r
      rw [hcc] at hok
      injection hok with h2
      injection h2 with h3 h4
      obtain ⟨hKI, -, -, -⟩ := createContainer_ok_fields hcc
      have h5 : g0.keyIndex = 1 := hKI
      omega

theorem factory_handle_key_witness :
    lookupInst (stepOk (runFactory Theme.info argHello none initState)) 2
      = some (mountInstance (factoryConfig argHello none).duration) ∧ (1 : Nat) < 2 :=
  ⟨(factory_handle_key.2.2.1 Theme.info argHello none initState
      (stepOk (runFactory Theme.info argHello none initState)) 2
      (by decide) (by decide)).2.2.1,
   factory_handle_key.2.2.2 Theme.info argHello none
      (stepOk (runFactory Theme.info argHello none initState)) 2 (by decide)⟩

/-- Claim C6 counterexample: after creating one instance (key 2) and
invoking its individual `close()`, the handle is still present in the
registry — individual close does not remove it. -/
theorem c6_counterexample :
    (stepOk (runFactory Theme.info argHello none initState)).registry = [2] ∧
    (invokeClose (stepOk (runFactory Theme.info argHello none initState)) 2).registry
      = [2] := by
  decide

/-- Claim C6 (amended): instance creation appends the new handle's key to
the registry in creation order; an individual `close()` leaves the
registry unchanged (the closed handle stays registered); only `closeAll`
empties the registry. -/
theorem registry_mutation :
    ∀ (g g' : GlobalState) (theme : Theme) (arg : FactoryArg) (dp : Option Int) (k : Nat),
      (runFactory theme arg dp g = Except.ok (g', k) → g'.registry = g.registry ++ [k]) ∧
      (invokeClose g k).registry = g.registry ∧
      (closeAll g).registry = [] := by
  intro g g' theme arg dp k
  refine ⟨?_, rfl, rfl⟩
  intro hok
  unfold runFactory renderElement at hok
  cases hcc : createContainer (factoryConfig arg dp) g with
  | error e => rw [hcc] at hok; cases hok
  | ok r =>
    obtain ⟨g1, cid⟩ := r
    rw [hcc] at hok
    injection hok with h2
    injection h2 with h3 h4
    obtain ⟨-, -, hRG, -⟩ := createContainer_ok_fields hcc
    subst h3
    show g1.registry ++ [g1.keyIndex + 1] = g.registry ++ [k]
    rw [hRG, h4]

theorem registry_mutation_witness :
    (stepOk (runFactory Theme.info argHello none initState)).registry
      = initState.registry ++ [2] :=
  (registry_mutation initState (stepOk (runFactory Theme.info argHello none initState))
      Theme.info argHello none 2).1 (by decide)

/-- A config whose `attach` is a real DOM element (a valid mount target). -/
def cfgDomAttach : MessageConfig :=
  { content := MsgContent.fromField (ContentV.str "x"), duration := none,
    zIndex := some 6000, placement := some Placement.top, attach := AttachV.domElement 7 }

/-- A config whose `attach` is a React element (not a valid mount target). -/
def cfgReactAttach : MessageConfig :=
  { content := MsgContent.fromField (ContentV.str "x"), duration := none,
    zIndex := some 6000, placement := some Placement.top, attach := AttachV.reactElement 3 }

/-- Claim C9 (code bug): with `attach` a real DOM element — a valid mount
target — the container is still created under `document.body` because the
`React.isValidElement` test is false for DOM elements; and with `attach`
a React element — not a valid mount target — container creation throws
(`querySelectorAll` on a non-node) instead of falling back to the body. -/
theorem c9_attach_behavior :
    createContainer cfgDomAttach initState
      = Except.ok ({ initState with
                     nextContainerId := 1,
                     containers := [{ id := 0, host := MountHost.body,
                                      placement := Placement.top,
                                      zIndex := some 6000 }] }, 0) ∧
    createContainer cfgReactAttach initState
      = Except.error "mountedDom.querySelectorAll is not a function" := by
  decide

/-- Claim C10: the factory treats its single argument as a full config
object iff it is a plain object with a truthy `content` field; any other
argument is used wholesale as the message content with the parameter
duration; for a recognized config object a `duration` field overrides the
factory's duration parameter, and an absent one falls back to it. -/
theorem factory_arg_dispatch (arg : FactoryArg) (dp : Option Int) :
    (¬ (arg.isPlainObject = true ∧ (arg.content.map truthyContent).getD false = true) →
       (factoryConfig arg dp).content = MsgContent.whole arg ∧
       (factoryConfig arg dp).duration = some (dp.getD globalDuration)) ∧
    ((arg.isPlainObject = true ∧ (arg.content.map truthyContent).getD false = true) →
       (∃ c, arg.content = some c ∧ (factoryConfig arg dp).content = MsgContent.fromField c) ∧
       (∀ d : Int, arg.duration = some d → (factoryConfig arg dp).duration = some d) ∧
       (arg.duration = none → (factoryConfig arg dp).duration = some (dp.getD globalDuration))) := by
  constructor
  · intro h
    have hc : isConfig arg = false := by
      cases hP : arg.isPlainObject with
      | false => simp [isConfig, hP]
      | true =>
        cases hC : (arg.content.map truthyContent).getD false with
        | false => simp [isConfig, hP, hC]
        | true => exact absurd ⟨hP, hC⟩ h
    constructor <;> simp [factoryConfig, hc]
  · intro h
    have hc : isConfig arg = true := by simp [isConfig, h.1, h.2]
    obtain ⟨c, hcc⟩ : ∃ c, arg.content = some c := by
      cases hcon : arg.content with
      | none =>
        rw [hcon] at h
        simp at h
      | some c => exact ⟨c, rfl⟩
    refine ⟨⟨c, hcc, ?_⟩, ?_, ?_⟩
    · simp [factoryConfig, hc, hcc]
    · intro d hd
      simp [factoryConfig, hc, hd]
    · intro hd
      simp [factoryConfig, hc, hd]

/-- A config-object argument: plain object, truthy content, duration 0. -/
def argCfg : FactoryArg :=
  { self := ContentV.nullV, isPlainObject := true, content := some (ContentV.str "hi"),
    duration := some 0, zIndex := none, placement := none, attach := AttachV.missing }

theorem factory_arg_dispatch_witness :
    (factoryConfig argCfg (some 9)).duration = some 0 :=
  ((factory_arg_dispatch argCfg (some 9)).2 (by decide)).2.1 0 (by decide)

end TMessage
